import Mathlib

/-!
Shallow embedding of the SpendingTracker query/aggregation engine.

The embedding follows the in-memory reference implementation
(`MemStorage` in `src/server/storage.ts`) and the Express route handlers
(`registerRoutes` in the routes file), with these representation choices:

* JS numbers (currency amounts, percentages) are modelled as `ℚ`;
  JS float arithmetic on small currency values is exact enough that the
  claims under study do not depend on binary rounding, and `toFixed(2)`
  composed with `parseFloat` is modelled as exact rounding to 2 decimals.
* A JS `Date` used as a timestamp (`dateTime`) is an `Int` (milliseconds
  since the epoch); a `Date` normalised to midnight (`dateOnly`, and every
  value produced by `setHours(0,0,0,0)`) is an `Int` counting calendar days
  since the epoch.  `getMonth()/getFullYear()` bucketing is modelled by
  `monthIdx`, computed from the day number by the standard civil-calendar
  conversion.
* `new Date(string)` (parsing of the edit payload's date strings, a JS
  runtime facility that is not part of this repository) is an explicit
  function parameter `parseTime`/`parseDay : String → Int` of the edit
  operations; theorems quantify over it and witnesses instantiate it.
* The `Map<number, Transaction>` store is a `List Transaction` in insertion
  order (`Array.from(map.values())` iterates in insertion order);
  `map.set` on an existing key is replacement in place.
* `Array.prototype.sort` is stable (ES2019), so it is modelled by
  `List.insertionSort r` with `r a b ↔ comparator a b ≤ 0`, which is the
  unique stable sort for a total preorder comparator.
* JS truthiness of optional parameters (`if (userId)`, `filters?.search`,
  `limit || 10`) is modelled explicitly: `0` and the empty string are falsy.
-/

namespace SpendingTracker

/-- Decidable equality for `Except`, used to evaluate the edit operations
on concrete inputs. -/
instance {e a : Type} [DecidableEq e] [DecidableEq a] : DecidableEq (Except e a)
  | .error x, .error y =>
    if h : x = y then isTrue (by rw [h]) else isFalse (by simp [h])
  | .error _, .ok _ => isFalse (by simp)
  | .ok _, .error _ => isFalse (by simp)
  | .ok x, .ok y =>
    if h : x = y then isTrue (by rw [h]) else isFalse (by simp [h])

/-- The closed category set of `shared/schema.ts` (`categoryEnum` and the
`z.enum` of `editTransactionSchema`). -/
def categories : List String :=
  ["Food", "Petrol", "Rent", "Healthcare", "Entertainment", "Clothing",
   "Insurance", "Communication", "Loans", "Toll", "Transportation",
   "Miscellaneous"]

/-- A stored transaction row (`Transaction` of `shared/schema.ts`).
`dateTime` is a millisecond timestamp, `dateOnly` a calendar-day number. -/
structure Transaction where
  id : Nat
  price : ℚ
  items : String
  dateTime : Int
  dateOnly : Int
  category : String
  userId : Nat
deriving DecidableEq

/-- Filters accepted by `IStorage.getTransactions`. -/
structure Filters where
  search : Option String
  category : Option String
  sortBy : Option String
  page : Option Int
  limit : Option Int
deriving DecidableEq

/-- JS truthiness for an optional string: the empty string is falsy. -/
def truthyStr : Option String → Option String
  | some s => if s = "" then none else some s
  | none => none

/-- JS truthiness for an optional numeric id: `0` is falsy. -/
def truthyNat : Option Nat → Option Nat
  | some n => if n = 0 then none else some n
  | none => none

/-- Models the JS pattern `x || d` for an optional number: absent and `0`
both fall back to the default. -/
def numOr : Option Int → Int → Int
  | some n, d => if n = 0 then d else n
  | none, d => d

/-- Models `hay.includes(needle)` on JS strings. -/
def jsIncludes (hay needle : String) : Bool :=
  decide (needle.toList <:+: hay.toList)

/-- Splitting of a character list at every occurrence of the separator
(structurally recursive so that proofs and witnesses can evaluate it). -/
def splitOnChar (c : Char) : List Char → List (List Char)
  | [] => [[]]
  | x :: xs =>
    if x = c then [] :: splitOnChar c xs
    else
      match splitOnChar c xs with
      | [] => [[x]]
      | y :: ys => (x :: y) :: ys

/-- Models the JS `s.split(sep)` for a single-character separator (as used
by `sortBy.split(':')`): `"".split(sep)` is `[""]`, and every occurrence of
the separator starts a new piece. -/
def jsSplit (s : String) (sep : Char) : List String :=
  (splitOnChar sep s.data).map (fun l => String.mk l)

/-- Models `Array.prototype.slice(s, e)` including the negative-index and
clamping behaviour of JS. -/
def jsSlice {α : Type} (l : List α) (s e : Int) : List α :=
  let len : Int := l.length
  let s2 := if s < 0 then max (len + s) 0 else min s len
  let e2 := if e < 0 then max (len + e) 0 else min e len
  (l.drop s2.toNat).take (e2 - s2).toNat

/-- Calendar-day number of a millisecond timestamp (midnight-to-midnight,
floor division). -/
def dayOfTime (ms : Int) : Int := ms / 86400000

/-- Civil-calendar conversion: day number since 1970-01-01 to
`(year, month 1..12, day 1..31)` (proleptic Gregorian). -/
def civilFromDays (z0 : Int) : Int × Int × Int :=
  let z := z0 + 719468
  let era := z / 146097
  let doe := z - era * 146097
  let yoe := (doe - doe / 1460 + doe / 36524 - doe / 146096) / 365
  let y := yoe + era * 400
  let doy := doe - (365 * yoe + yoe / 4 - yoe / 100)
  let mp := (5 * doy + 2) / 153
  let d := doy - (153 * mp + 2) / 5 + 1
  let m := if mp < 10 then mp + 3 else mp - 9
  (if m ≤ 2 then y + 1 else y, m, d)

/-- Month bucket of a calendar day, as `year * 12 + month`; two days are in
the same calendar month (`getMonth` and `getFullYear` both agree) exactly
when their `monthIdx` agree, and the previous calendar month (with year
wrap-around) is `monthIdx - 1`. -/
def monthIdx (d : Int) : Int :=
  (civilFromDays d).1 * 12 + (civilFromDays d).2.1

/-- Gregorian leap-year rule. -/
def isLeap (y : Int) : Bool :=
  y % 4 = 0 ∧ (y % 100 ≠ 0 ∨ y % 400 = 0)

/-- Number of days of month `m` (1..12) of year `y`, as produced by
`new Date(y, m, 0).getDate()`. -/
def daysInMonth (y m : Int) : Int :=
  if m = 2 then (if isLeap y then 29 else 28)
  else if m = 4 ∨ m = 6 ∨ m = 9 ∨ m = 11 then 30
  else 31

/-- Sort relation for the comparator `(a, b) => a.price - b.price`. -/
def priceAsc (a b : Transaction) : Prop := a.price ≤ b.price

/-- Sort relation for the comparator `(a, b) => b.price - a.price`. -/
def priceDesc (a b : Transaction) : Prop := b.price ≤ a.price

/-- Sort relation for the comparator `(a, b) => dateA - dateB`. -/
def dateAsc (a b : Transaction) : Prop := a.dateTime ≤ b.dateTime

/-- Sort relation for the comparator `(a, b) => dateB - dateA`. -/
def dateDesc (a b : Transaction) : Prop := b.dateTime ≤ a.dateTime

instance : DecidableRel priceAsc :=
  fun a b => inferInstanceAs (Decidable (a.price ≤ b.price))

instance : DecidableRel priceDesc :=
  fun a b => inferInstanceAs (Decidable (b.price ≤ a.price))

instance : DecidableRel dateAsc :=
  fun a b => inferInstanceAs (Decidable (a.dateTime ≤ b.dateTime))

instance : DecidableRel dateDesc :=
  fun a b => inferInstanceAs (Decidable (b.dateTime ≤ a.dateTime))

instance : IsTotal Transaction priceAsc := ⟨fun a b => le_total a.price b.price⟩

instance : IsTotal Transaction priceDesc := ⟨fun a b => le_total b.price a.price⟩

instance : IsTotal Transaction dateAsc := ⟨fun a b => le_total a.dateTime b.dateTime⟩

instance : IsTotal Transaction dateDesc := ⟨fun a b => le_total b.dateTime a.dateTime⟩

instance : IsTrans Transaction priceAsc := ⟨fun _ _ _ h h2 => le_trans h h2⟩

instance : IsTrans Transaction priceDesc := ⟨fun _ _ _ h h2 => le_trans h2 h⟩

instance : IsTrans Transaction dateAsc := ⟨fun _ _ _ h h2 => le_trans h h2⟩

instance : IsTrans Transaction dateDesc := ⟨fun _ _ _ h h2 => le_trans h2 h⟩

/-- The sorting step of `MemStorage.getTransactions` (storage.ts 479-503):
a truthy `sortBy` is split at the colon; field `price` or `date` selects a
comparator with `direction === 'desc'` deciding the order; any other field
leaves the array unsorted; a falsy `sortBy` sorts by date descending. -/
def applySort (sortBy : Option String) (l : List Transaction) : List Transaction :=
  match truthyStr sortBy with
  | some s =>
    if (jsSplit s ':').headD "" = "price" then
      if (jsSplit s ':')[1]? = some "desc"
      then List.insertionSort priceDesc l
      else List.insertionSort priceAsc l
    else if (jsSplit s ':').headD "" = "date" then
      if (jsSplit s ':')[1]? = some "desc"
      then List.insertionSort dateDesc l
      else List.insertionSort dateAsc l
    else l
  | none => List.insertionSort dateDesc l

/-- The filtering pipeline of `MemStorage.getTransactions`
(storage.ts 455-473): userId, then category, then case-insensitive
substring search on `items`, each applied only when truthy. -/
def applyFilters (store : List Transaction) (userId : Option Nat) (f : Filters) :
    List Transaction :=
  let l1 := match truthyNat userId with
    | some u => store.filter (fun t => t.userId = u)
    | none => store
  let l2 := match truthyStr f.category with
    | some c => l1.filter (fun t => t.category = c)
    | none => l1
  match truthyStr f.search with
  | some s => l2.filter (fun t => jsIncludes t.items.toLower s.toLower)
  | none => l2

/-- Conjunction of the three filter predicates, written directly from the
spec's description of the filter contract (used to state claims about the
filtered set as a whole). -/
def matchesFilters (userId : Option Nat) (f : Filters) (t : Transaction) : Bool :=
  (match truthyNat userId with
    | some u => t.userId = u
    | none => true) &&
  (match truthyStr f.category with
    | some c => t.category = c
    | none => true) &&
  (match truthyStr f.search with
    | some s => jsIncludes t.items.toLower s.toLower
    | none => true)

/-- Result record of `IStorage.getTransactions`. -/
structure GetResult where
  transactions : List Transaction
  totalCount : Nat
deriving DecidableEq

namespace MemStorage

/-- Embedding of `MemStorage.getTransactions` (storage.ts 448-515):
filter, count before pagination, sort, then paginate with
`startIndex = (page - 1) * limit` and `slice(startIndex, startIndex + limit)`;
`limit` and `page` fall back to `10` and `1` when falsy. -/
def getTransactions (store : List Transaction) (userId : Option Nat) (f : Filters) :
    GetResult :=
  let filtered := applyFilters store userId f
  let totalCount := filtered.length
  let sorted := applySort f.sortBy filtered
  let limit := numOr f.limit 10
  let page := numOr f.page 1
  let startIndex := (page - 1) * limit
  { transactions := jsSlice sorted startIndex (startIndex + limit)
    totalCount := totalCount }

end MemStorage

/-- Rounding to two decimals, modelling `parseFloat(x.toFixed(2))`. -/
def round2 (q : ℚ) : ℚ := (round (q * 100) : ℤ) / 100

/-- Response of the `GET /api/transactions` route. -/
structure ListResponse where
  transactions : List Transaction
  total : Nat
  page : Int
  limit : Int
  pages : Int
  filteredTotal : ℚ
deriving DecidableEq

/-- Route-level filters: the handler already substitutes `1` and `10` for
absent `page`/`limit` query parameters, so they are plain numbers here. -/
structure RouteFilters where
  search : Option String
  category : Option String
  sortBy : Option String
  page : Int
  limit : Int
deriving DecidableEq

/-- Embedding of the `GET /api/transactions` handler (routes 12-47):
queries the storage, sums `price` over the transactions of the returned
page, and answers with the page, the pagination block with
`pages = Math.ceil(totalCount / limit)`, and that sum rounded to two
decimals.  (`pages` is faithful for `limit > 0`; the handler's JS `Infinity`
for `limit = 0` is outside this model and outside every claim.)  The
route always passes `undefined` for `userId`; it is kept as a parameter
because the storage contract has it. -/
def listTransactions (store : List Transaction) (userId : Option Nat)
    (f : RouteFilters) : ListResponse :=
  let r := MemStorage.getTransactions store userId
    ⟨f.search, f.category, f.sortBy, some f.page, some f.limit⟩
  let pageSum := (r.transactions.map (fun t => t.price)).sum
  { transactions := r.transactions
    total := r.totalCount
    page := f.page
    limit := f.limit
    pages := ⌈(r.totalCount : ℚ) / (f.limit : ℚ)⌉
    filteredTotal := round2 pageSum }

/-- The edit payload of `editTransactionSchema` (shared/schema.ts 52-72):
`dateTime` and `dateOnly` arrive as strings. -/
structure EditPayload where
  id : Nat
  price : ℚ
  items : String
  dateTime : String
  dateOnly : String
  category : String
deriving DecidableEq

/-- Embedding of `editTransactionSchema.parse`: zod checks
`price` positive (`z.number().positive()`), `items` non-empty
(`z.string().min(1)`) and `category` in the closed enum; `dateTime` and
`dateOnly` are only `z.string()` — in this typed model every string passes
them, mirroring that zod performs no date-parseability check.  On failure
zod reports every failing field, modelled by the list of failing field
names. -/
def validateEdit (e : EditPayload) : Except (List String) EditPayload :=
  let errs :=
    (if 0 < e.price then [] else ["price"]) ++
    (if e.items = "" then ["items"] else []) ++
    (if e.category ∈ categories then [] else ["category"])
  if errs = [] then .ok e else .error errs

namespace MemStorage

/-- Embedding of `MemStorage.updateTransaction` (storage.ts 521-539):
throws when the id is absent, otherwise spreads the stored transaction and
overwrites exactly `price`, `items`, `dateTime` (via `new Date(string)`,
the `parseTime` parameter), `dateOnly` (via `new Date(string)`, the
`parseDay` parameter) and `category`, then `Map.set` replaces the entry in
place. -/
def updateTransaction (parseTime parseDay : String → Int)
    (store : List Transaction) (id : Nat) (e : EditPayload) :
    Except String (Transaction × List Transaction) :=
  match store.find? (fun t => t.id = id) with
  | none => .error "Transaction not found"
  | some t =>
    let updated : Transaction :=
      { t with
        price := e.price
        items := e.items
        dateTime := parseTime e.dateTime
        dateOnly := parseDay e.dateOnly
        category := e.category }
    .ok (updated, store.map (fun s => if s.id = id then updated else s))

end MemStorage

/-- The record `{...t, price, items, dateTime, dateOnly, category}` built by
`MemStorage.updateTransaction` for a found transaction `t`. -/
def updatedOf (parseTime parseDay : String → Int) (t : Transaction)
    (e : EditPayload) : Transaction :=
  { t with
    price := e.price
    items := e.items
    dateTime := parseTime e.dateTime
    dateOnly := parseDay e.dateOnly
    category := e.category }

/-- Outcome of the `PUT /api/transactions/:id` handler: 400 with field
errors, 404, 200 with the updated record, or 500. -/
inductive PutOutcome where
  | validationError (errs : List String)
  | notFound
  | updated (t : Transaction)
  | failure
deriving DecidableEq

/-- Embedding of the `PUT /api/transactions/:id` handler (routes 72-107):
parse the body against `editTransactionSchema` (validation happens before
any storage access), 400 with the field errors on a `ZodError`, then look
the id up (404 when absent), then update.  Returns the response together
with the store after the request. -/
def putTransaction (parseTime parseDay : String → Int)
    (store : List Transaction) (id : Nat) (body : EditPayload) :
    PutOutcome × List Transaction :=
  match validateEdit { body with id := id } with
  | .error errs => (.validationError errs, store)
  | .ok data =>
    match store.find? (fun t => t.id = id) with
    | none => (.notFound, store)
    | some _ =>
      match MemStorage.updateTransaction parseTime parseDay store id data with
      | .ok (t, store2) => (.updated t, store2)
      | .error _ => (.failure, store)

/-- The user filter shared by every summary method
(`userId ? all.filter(...) : all`, with JS truthiness). -/
def userTx (store : List Transaction) (userId : Option Nat) : List Transaction :=
  match truthyNat userId with
  | some u => store.filter (fun t => t.userId = u)
  | none => store

/-- Sum of `price` over the transactions of calendar day `d`. -/
def daySum (l : List Transaction) (d : Int) : ℚ :=
  ((l.filter (fun t => t.dateOnly = d)).map (fun t => t.price)).sum

/-- One step of the `Map<string, number>` accumulation
`map.set(cat, (map.get(cat) || 0) + price)`: add into the first entry with
this key, or append a fresh entry (JS `Map` preserves insertion order). -/
def addTo : List (String × ℚ) → String → ℚ → List (String × ℚ)
  | [], c, q => [(c, q)]
  | p :: rest, c, q =>
    if p.1 = c then (p.1, p.2 + q) :: rest else p :: addTo rest c q

/-- The category-totals map built by iterating over a transaction list. -/
def groupTotals (l : List Transaction) : List (String × ℚ) :=
  l.foldl (fun m t => addTo m t.category t.price) []

/-- The summary record returned by `getSpendingSummary`. -/
structure SpendingSummary where
  todayTotal : ℚ
  todayTrend : ℚ
  monthTotal : ℚ
  monthTrend : ℚ
  topCategory : String
  topCategoryAmount : ℚ
  topCategoryPercentage : ℚ
  dailyAverage : ℚ
deriving DecidableEq

/-- One row of `getCategorySummary`. -/
structure CategorySummary where
  category : String
  total : ℚ
  percentage : ℚ
deriving DecidableEq

/-- Sort relation for the comparator `(a, b) => b.total - a.total`. -/
def catDesc (a b : CategorySummary) : Prop := b.total ≤ a.total

instance : DecidableRel catDesc :=
  fun a b => inferInstanceAs (Decidable (b.total ≤ a.total))

instance : IsTotal CategorySummary catDesc := ⟨fun a b => le_total b.total a.total⟩

instance : IsTrans CategorySummary catDesc := ⟨fun _ _ _ h h2 => le_trans h2 h⟩

/-- One row of `getDailySpending`; `date` is the calendar-day number that
the source formats as `yyyy-MM-dd`. -/
structure DailySpending where
  date : Int
  total : ℚ
deriving DecidableEq

namespace MemStorage

/-- Embedding of `MemStorage.getSpendingSummary` (storage.ts 542-647).
`today` is the calendar-day number of the call moment (the source's
`new Date()` with `setHours(0,0,0,0)`).  Month membership
(`getMonth() === m && getFullYear() === y`) is `monthIdx` equality, the
previous month is `monthIdx today - 1`, and `daysInMonth` is
`new Date(y, m + 1, 0).getDate()`. -/
def getSpendingSummary (store : List Transaction) (userId : Option Nat)
    (today : Int) : SpendingSummary :=
  let user := userTx store userId
  let todayTransactions := user.filter (fun t => t.dateOnly = today)
  let todayTotal := (todayTransactions.map (fun t => t.price)).sum
  let lastWeek := (List.range 7).map (fun (i : Nat) => today - ((i : Int) + 1))
  let dailyAmounts := lastWeek.map (fun d =>
    let dayTransactions := user.filter (fun t => t.dateOnly = d)
    if 0 < dayTransactions.length
    then (dayTransactions.map (fun t => t.price)).sum
    else 0)
  let avgDailySpending := dailyAmounts.sum / (lastWeek.length : ℚ)
  let todayTrend :=
    if 0 < avgDailySpending
    then ((todayTotal - avgDailySpending) / avgDailySpending) * (-100)
    else 0
  let monthTransactions := user.filter (fun t => monthIdx t.dateOnly = monthIdx today)
  let monthTotal := (monthTransactions.map (fun t => t.price)).sum
  let lastMonthTransactions :=
    user.filter (fun t => monthIdx t.dateOnly = monthIdx today - 1)
  let lastMonthTotal := (lastMonthTransactions.map (fun t => t.price)).sum
  let monthTrend :=
    if 0 < lastMonthTotal
    then ((monthTotal - lastMonthTotal) / lastMonthTotal) * 100
    else 0
  let categoryTotals := groupTotals monthTransactions
  let top := categoryTotals.foldl
    (fun acc p => if acc.2 < p.2 then p else acc) ("None", 0)
  let topCategoryPercentage := if 0 < monthTotal then top.2 / monthTotal * 100 else 0
  let dailyAverage :=
    monthTotal / ((daysInMonth (civilFromDays today).1 (civilFromDays today).2.1 : Int) : ℚ)
  { todayTotal := todayTotal
    todayTrend := todayTrend
    monthTotal := monthTotal
    monthTrend := monthTrend
    topCategory := top.1
    topCategoryAmount := top.2
    topCategoryPercentage := topCategoryPercentage
    dailyAverage := dailyAverage }

/-- Embedding of `MemStorage.getCategorySummary` (storage.ts 649-693):
current-month transactions grouped by category in first-occurrence order,
percentage of the month total guarded against a zero total, then a stable
sort by total descending. -/
def getCategorySummary (store : List Transaction) (userId : Option Nat)
    (today : Int) : List CategorySummary :=
  let user := userTx store userId
  let monthTransactions := user.filter (fun t => monthIdx t.dateOnly = monthIdx today)
  let totalSpending := (monthTransactions.map (fun t => t.price)).sum
  let categoryTotals := groupTotals monthTransactions
  let categorySummary := categoryTotals.map (fun p =>
    { category := p.1
      total := p.2
      percentage := if 0 < totalSpending then p.2 / totalSpending * 100 else 0
      : CategorySummary })
  List.insertionSort catDesc categorySummary

/-- Embedding of `MemStorage.getDailySpending` (storage.ts 695-728):
the `days` calendar days ending `today`, in ascending order, each with the
sum of `price` over the transactions of that `dateOnly`. -/
def getDailySpending (store : List Transaction) (userId : Option Nat)
    (today : Int) (days : Nat) : List DailySpending :=
  let user := userTx store userId
  let dates := (List.range days).map (fun (i : Nat) => today - ((days : Int) - 1 - (i : Int)))
  dates.map (fun date =>
    let dayTransactions := user.filter (fun t => t.dateOnly = date)
    { date := date
      total := (dayTransactions.map (fun t => t.price)).sum })

end MemStorage

/-! Helper lemmas shared by the claim theorems. -/

theorem applyFilters_eq_filter (store : List Transaction) (userId : Option Nat)
    (f : Filters) :
    applyFilters store userId f = store.filter (matchesFilters userId f) := by
  unfold applyFilters matchesFilters
  rcases truthyNat userId with _ | u <;>
    rcases truthyStr f.category with _ | c <;>
      rcases truthyStr f.search with _ | s <;>
        simp [List.filter_filter, Bool.and_comm, Bool.and_assoc, Bool.and_left_comm]

theorem applySort_perm (sortBy : Option String) (l : List Transaction) :
    List.Perm (applySort sortBy l) l := by
  unfold applySort
  cases truthyStr sortBy with
  | none => exact List.perm_insertionSort _ _
  | some s =>
    dsimp only
    split
    · split <;> exact List.perm_insertionSort _ _
    · split
      · split <;> exact List.perm_insertionSort _ _
      · exact List.Perm.refl l

theorem length_applySort (sortBy : Option String) (l : List Transaction) :
    (applySort sortBy l).length = l.length :=
  (applySort_perm sortBy l).length_eq

theorem mem_applySort {sortBy : Option String} {l : List Transaction}
    {t : Transaction} (h : t ∈ applySort sortBy l) : t ∈ l :=
  (applySort_perm sortBy l).mem_iff.1 h

theorem mem_jsSlice {α : Type} {l : List α} {s e : Int} {a : α}
    (h : a ∈ jsSlice l s e) : a ∈ l := by
  unfold jsSlice at h
  exact List.drop_subset _ _ (List.take_subset _ _ h)

theorem jsSlice_eq_nil {α : Type} {l : List α} {s e : Int}
    (hs : 0 ≤ s) (hlen : (l.length : Int) ≤ s) : jsSlice l s e = [] := by
  unfold jsSlice
  have h1 : ¬ s < 0 := not_lt.2 hs
  have h2 : min s (l.length : Int) = (l.length : Int) := min_eq_right hlen
  simp only [h1, if_false, h2]
  have h3 : ((l.length : Int)).toNat = l.length := Int.toNat_natCast _
  rw [h3, List.drop_length, List.take_nil]

/-! Concrete demonstration transactions used by counterexamples and
witnesses. -/

/-- A demonstration transaction: price 1, earlier timestamp. -/
def dA : Transaction := ⟨1, 1, "Groceries", 0, 0, "Food", 1⟩

/-- A demonstration transaction: price 2, later timestamp. -/
def dB : Transaction := ⟨2, 2, "Coffee", 100, 0, "Food", 1⟩

/-! Claim C1. -/

/-- C1 counterexample: with two matching transactions of prices 1 and 2 and
`limit = 1`, `page = 1`, the list operation's `filteredTotal` is 2 (the sum
over the returned page) while the sum of `price` over the entire filtered
set, rounded to 2 decimals, is 3 — so `filteredTotal` does not equal the
whole-set sum the claim describes. -/
theorem C1_counterexample :
    (listTransactions [dA, dB] none ⟨none, none, none, 1, 1⟩).filteredTotal = 2 ∧
    round2 ((([dA, dB].filter
        (matchesFilters none ⟨none, none, none, some 1, some 1⟩)).map
          (fun t => t.price)).sum) = 3 ∧
    (listTransactions [dA, dB] none ⟨none, none, none, 1, 1⟩).filteredTotal ≠
      round2 ((([dA, dB].filter
        (matchesFilters none ⟨none, none, none, some 1, some 1⟩)).map
          (fun t => t.price)).sum) := by
  refine ⟨?_, ?_, ?_⟩ <;>
    norm_num [listTransactions, MemStorage.getTransactions, applyFilters,
      applySort, matchesFilters, truthyStr, truthyNat, numOr, jsSlice, round2,
      dA, dB, List.insertionSort, List.orderedInsert, dateDesc]

/-- C1 (amended): the `filteredTotal` of the list response equals the sum
of `price` over the transactions of the returned page only, rounded to 2
decimal places; every transaction of that page satisfies every supplied
filter predicate. -/
theorem C1_filteredTotal_page_only (store : List Transaction)
    (userId : Option Nat) (f : RouteFilters) :
    (listTransactions store userId f).filteredTotal =
      round2 (((listTransactions store userId f).transactions.map
        (fun t => t.price)).sum) ∧
    ∀ t ∈ (listTransactions store userId f).transactions,
      matchesFilters userId ⟨f.search, f.category, f.sortBy, some f.page, some f.limit⟩ t
        = true := by
  constructor
  · rfl
  · intro t ht
    have h1 : t ∈ applySort f.sortBy
        (applyFilters store userId ⟨f.search, f.category, f.sortBy, some f.page, some f.limit⟩) :=
      mem_jsSlice ht
    have h2 := mem_applySort h1
    rw [applyFilters_eq_filter] at h2
    exact (List.mem_filter.1 h2).2

/-- C1 witness: the amended theorem applied to the two-transaction store at
page 1, limit 1. -/
theorem C1_witness :
    matchesFilters none ⟨none, none, none, some 1, some 1⟩ dB = true :=
  (C1_filteredTotal_page_only [dA, dB] none ⟨none, none, none, 1, 1⟩).2 dB (by decide)

/-! Claim C9. -/

/-- C9 counterexample: the empty string is a `sortBy` whose field component
(the part before the colon) is neither "price" nor "date", yet
`MemStorage.getTransactions` does not return the insertion order: the empty
string is falsy in JS, so the default date-descending sort applies and the
two transactions come back reversed. -/
theorem C9_counterexample :
    (jsSplit "" ':').headD "" ≠ "price" ∧
    (jsSplit "" ':').headD "" ≠ "date" ∧
    (MemStorage.getTransactions [dA, dB] none
      ⟨none, none, some "", some 1, some 10⟩).transactions = [dB, dA] ∧
    [dB, dA] ≠ [dA, dB] := by
  refine ⟨by decide, by decide, ?_, by decide⟩
  norm_num [MemStorage.getTransactions, applyFilters, applySort, truthyStr,
    truthyNat, numOr, jsSlice, dA, dB, List.insertionSort, List.orderedInsert,
    dateDesc]

/-- C9 (amended): for every nonempty `sortBy` string whose field component
is neither "price" nor "date", `MemStorage.getTransactions` applies no
sorting and pages the filtered transactions in the store's insertion order,
whereas an absent `sortBy` sorts by `dateTime` descending; the empty string,
being falsy, also falls back to the default date-descending order. -/
theorem C9_sortBy_fallback :
    (∀ (store : List Transaction) (userId : Option Nat) (f : Filters) (s : String),
      f.sortBy = some s → s ≠ "" →
      (jsSplit s ':').headD "" ≠ "price" →
      (jsSplit s ':').headD "" ≠ "date" →
      (MemStorage.getTransactions store userId f).transactions =
        jsSlice (applyFilters store userId f)
          ((numOr f.page 1 - 1) * numOr f.limit 10)
          ((numOr f.page 1 - 1) * numOr f.limit 10 + numOr f.limit 10)) ∧
    (∀ (store : List Transaction) (userId : Option Nat) (f : Filters),
      f.sortBy = none →
      (MemStorage.getTransactions store userId f).transactions =
        jsSlice (List.insertionSort dateDesc (applyFilters store userId f))
          ((numOr f.page 1 - 1) * numOr f.limit 10)
          ((numOr f.page 1 - 1) * numOr f.limit 10 + numOr f.limit 10)) := by
  constructor
  · intro store userId f s hs hne hp hd
    simp only [MemStorage.getTransactions, applySort, hs, truthyStr,
      if_neg hne, hp, hd, if_false]
  · intro store userId f hf
    simp only [MemStorage.getTransactions, applySort, hf, truthyStr]

/-- C9 witness: the amended theorem applied with `sortBy = "foo:asc"` on the
two-transaction store. -/
theorem C9_witness :
    (MemStorage.getTransactions [dA, dB] none
      ⟨none, none, some "foo:asc", some 1, some 10⟩).transactions =
      jsSlice (applyFilters [dA, dB] none ⟨none, none, some "foo:asc", some 1, some 10⟩)
        ((numOr (some 1) 1 - 1) * numOr (some 10) 10)
        ((numOr (some 1) 1 - 1) * numOr (some 10) 10 + numOr (some 10) 10) :=
  C9_sortBy_fallback.1 [dA, dB] none ⟨none, none, some "foo:asc", some 1, some 10⟩
    "foo:asc" rfl (by decide) (by decide) (by decide)

/-! Claim C10. -/

/-- C10: `MemStorage.getTransactions` silently normalises a falsy `limit`
or `page`: `limit = 0` behaves exactly like `limit = 10` and `page = 0`
exactly like `page = 1` (the `x || default` pattern), while positive values
are used as given in the offset `(page - 1) * limit`. -/
theorem C10_falsy_page_limit :
    (∀ (store : List Transaction) (userId : Option Nat)
        (search category sortBy : Option String) (page : Option Int),
      MemStorage.getTransactions store userId ⟨search, category, sortBy, page, some 0⟩ =
        MemStorage.getTransactions store userId ⟨search, category, sortBy, page, some 10⟩) ∧
    (∀ (store : List Transaction) (userId : Option Nat)
        (search category sortBy : Option String) (limit : Option Int),
      MemStorage.getTransactions store userId ⟨search, category, sortBy, some 0, limit⟩ =
        MemStorage.getTransactions store userId ⟨search, category, sortBy, some 1, limit⟩) ∧
    (∀ (store : List Transaction) (userId : Option Nat)
        (search category sortBy : Option String) (P L : Int),
      0 < P → 0 < L →
      (MemStorage.getTransactions store userId
          ⟨search, category, sortBy, some P, some L⟩).transactions =
        jsSlice
          (applySort sortBy (applyFilters store userId
            ⟨search, category, sortBy, some P, some L⟩))
          ((P - 1) * L) ((P - 1) * L + L)) := by
  refine ⟨fun store userId search category sortBy page => rfl,
    fun store userId search category sortBy limit => rfl,
    fun store userId search category sortBy P L hP hL => ?_⟩
  simp only [MemStorage.getTransactions]
  rw [show numOr (some L) 10 = L from if_neg (by omega),
    show numOr (some P) 1 = P from if_neg (by omega)]

/-- C10 witness: the positive-values clause applied at `page = 2`,
`limit = 1` on the two-transaction store. -/
theorem C10_witness :
    (MemStorage.getTransactions [dA, dB] none
        ⟨none, none, none, some 2, some 1⟩).transactions =
      jsSlice (applySort none (applyFilters [dA, dB] none ⟨none, none, none, some 2, some 1⟩))
        ((2 - 1) * 1) ((2 - 1) * 1 + 1) :=
  C10_falsy_page_limit.2.2 [dA, dB] none none none none 2 1 (by decide) (by decide)

/-! Claim C5. -/

/-- C5: for a positive `limit` and a 1-based `page`, the list response
reports `total` as the count of matches before pagination, satisfies
`pages = ⌈total / limit⌉`, and returns an empty transaction list (no error)
for every `page` beyond `pages`; the page itself is the slice starting at
offset `(page - 1) * limit`. -/
theorem C5_pagination (store : List Transaction) (userId : Option Nat)
    (f : RouteFilters) (hL : 0 < f.limit) (hP : 1 ≤ f.page) :
    (listTransactions store userId f).total =
      (store.filter (matchesFilters userId
        ⟨f.search, f.category, f.sortBy, some f.page, some f.limit⟩)).length ∧
    (listTransactions store userId f).pages =
      ⌈(((listTransactions store userId f).total : ℚ)) / (f.limit : ℚ)⌉ ∧
    (listTransactions store userId f).transactions =
      jsSlice (applySort f.sortBy (applyFilters store userId
          ⟨f.search, f.category, f.sortBy, some f.page, some f.limit⟩))
        ((f.page - 1) * f.limit) ((f.page - 1) * f.limit + f.limit) ∧
    ((listTransactions store userId f).pages < f.page →
      (listTransactions store userId f).transactions = []) := by
  have hL0 : f.limit ≠ 0 := by omega
  have hP0 : f.page ≠ 0 := by omega
  have htr : (listTransactions store userId f).transactions =
      jsSlice (applySort f.sortBy (applyFilters store userId
          ⟨f.search, f.category, f.sortBy, some f.page, some f.limit⟩))
        ((f.page - 1) * f.limit) ((f.page - 1) * f.limit + f.limit) := by
    simp only [listTransactions, MemStorage.getTransactions]
    rw [show numOr (some f.limit) 10 = f.limit from if_neg hL0,
      show numOr (some f.page) 1 = f.page from if_neg hP0]
  refine ⟨by rw [show (listTransactions store userId f).total =
      (applyFilters store userId
        ⟨f.search, f.category, f.sortBy, some f.page, some f.limit⟩).length from rfl,
      applyFilters_eq_filter], rfl, htr, ?_⟩
  intro hpg
  rw [htr]
  set T : Nat := (applyFilters store userId
    ⟨f.search, f.category, f.sortBy, some f.page, some f.limit⟩).length with hT
  have hpages : (listTransactions store userId f).pages = ⌈((T : ℚ)) / (f.limit : ℚ)⌉ := rfl
  rw [hpages] at hpg
  have hceil : ((T : ℚ)) / (f.limit : ℚ) ≤ (⌈((T : ℚ)) / (f.limit : ℚ)⌉ : ℚ) := Int.le_ceil _
  have hLQ : (0 : ℚ) < (f.limit : ℚ) := by exact_mod_cast hL
  have h2 : ((T : ℚ)) ≤ (⌈((T : ℚ)) / (f.limit : ℚ)⌉ : ℚ) * (f.limit : ℚ) :=
    (div_le_iff₀ hLQ).1 hceil
  have h3 : (T : Int) ≤ ⌈((T : ℚ)) / (f.limit : ℚ)⌉ * f.limit := by exact_mod_cast h2
  have h4 : ⌈((T : ℚ)) / (f.limit : ℚ)⌉ ≤ f.page - 1 := by omega
  have h5 : ⌈((T : ℚ)) / (f.limit : ℚ)⌉ * f.limit ≤ (f.page - 1) * f.limit :=
    mul_le_mul_of_nonneg_right h4 (by omega)
  apply jsSlice_eq_nil
  · have : (0 : Int) ≤ f.page - 1 := by omega
    exact mul_nonneg this (by omega)
  · rw [length_applySort]
    omega

/-- C5 witness: with two matching transactions and `limit = 1`, `pages = 2`,
so page 3 returns the empty list. -/
theorem C5_witness :
    (listTransactions [dA, dB] none ⟨none, none, none, 3, 1⟩).transactions = [] := by
  refine (C5_pagination [dA, dB] none ⟨none, none, none, 3, 1⟩
    (by norm_num) (by norm_num)).2.2.2 ?_
  show (⌈((MemStorage.getTransactions [dA, dB] none
      ⟨none, none, none, some 3, some 1⟩).totalCount : ℚ) / ((1 : Int) : ℚ)⌉) < 3
  norm_num [MemStorage.getTransactions, applyFilters, truthyStr, truthyNat]

/-! Claim C2. -/

/-- Average daily total of `price` over the 7 calendar days immediately
preceding `today` (today excluded), written from the spec: the sum of the
seven daily totals divided by 7. -/
def specAvg7 (store : List Transaction) (userId : Option Nat) (today : Int) : ℚ :=
  ((List.range 7).map (fun (i : Nat) => daySum (userTx store userId) (today - ((i : Int) + 1)))).sum / 7

/-- C2: `getSpendingSummary` returns
`todayTrend = ((todayTotal - avg) / avg) * -100` when `avg > 0` and `0`
otherwise, where `avg` is the average daily total over the 7 days before
`today`; consequently a day spending less than average yields a positive
trend. -/
theorem C2_todayTrend (store : List Transaction) (userId : Option Nat) (today : Int) :
    ((MemStorage.getSpendingSummary store userId today).todayTrend =
      if 0 < specAvg7 store userId today
      then ((daySum (userTx store userId) today - specAvg7 store userId today) /
          specAvg7 store userId today) * (-100)
      else 0) ∧
    (0 < specAvg7 store userId today →
      daySum (userTx store userId) today < specAvg7 store userId today →
      0 < (MemStorage.getSpendingSummary store userId today).todayTrend) := by
  have hguard : ∀ l : List Transaction,
      (if 0 < l.length then (l.map (fun t => t.price)).sum else 0) =
        (l.map (fun t => t.price)).sum := by
    intro l
    cases l <;> simp
  have hfun : (fun d =>
      if 0 < ((userTx store userId).filter (fun t => t.dateOnly = d)).length
      then (((userTx store userId).filter (fun t => t.dateOnly = d)).map
        (fun t => t.price)).sum
      else 0) = fun d => daySum (userTx store userId) d :=
    funext (fun d => hguard _)
  have key : (MemStorage.getSpendingSummary store userId today).todayTrend =
      if 0 < specAvg7 store userId today
      then ((daySum (userTx store userId) today - specAvg7 store userId today) /
          specAvg7 store userId today) * (-100)
      else 0 := by
    simp only [MemStorage.getSpendingSummary, hguard, specAvg7, daySum,
      List.map_map, Function.comp_def, List.length_map, List.length_range,
      Nat.cast_ofNat]
  refine ⟨key, fun h1 h2 => ?_⟩
  rw [key, if_pos h1]
  have hneg : (daySum (userTx store userId) today - specAvg7 store userId today) /
      specAvg7 store userId today < 0 :=
    div_neg_of_neg_of_pos (sub_neg.2 h2) h1
  exact mul_pos_of_neg_of_neg hneg (by norm_num)

/-- A transaction for the C2 witness: price 7 on the day before day 0. -/
def dC : Transaction := ⟨3, 7, "Phone Bill", -86400000, -1, "Communication", 1⟩

/-- C2 witness: with one transaction of price 7 on yesterday, the preceding
7-day average is 1, today spends 0 (less than average), and the trend is
positive. -/
theorem C2_witness : 0 < (MemStorage.getSpendingSummary [dC] none 0).todayTrend := by
  refine (C2_todayTrend [dC] none 0).2 ?_ ?_
  · show (0 : ℚ) < specAvg7 [dC] none 0
    rw [specAvg7, show List.range 7 = [0, 1, 2, 3, 4, 5, 6] from rfl]
    norm_num [daySum, userTx, truthyNat, dC]
  · show daySum (userTx [dC] none) 0 < specAvg7 [dC] none 0
    rw [specAvg7, show List.range 7 = [0, 1, 2, 3, 4, 5, 6] from rfl]
    norm_num [daySum, userTx, truthyNat, dC]

/-! Claim C6. -/

/-- C6: `getDailySpending` returns exactly `days` entries, covering the
`days` consecutive calendar days ending `today` in ascending order (entry
`i` carries day `today - days + 1 + i`, so consecutive entries differ by
one day), and each entry's total is the sum of `price` over the user's
transactions of that `dateOnly` — in particular a day with no transactions
appears with total `0`. -/
theorem C6_dailySpending (store : List Transaction) (userId : Option Nat)
    (today : Int) (days : Nat) :
    (MemStorage.getDailySpending store userId today days).length = days ∧
    (∀ i (h : i < (MemStorage.getDailySpending store userId today days).length),
      ((MemStorage.getDailySpending store userId today days)[i]).date =
          today - (days : Int) + 1 + (i : Int) ∧
      ((MemStorage.getDailySpending store userId today days)[i]).total =
          daySum (userTx store userId) (today - (days : Int) + 1 + (i : Int))) ∧
    (∀ i (h : i + 1 < (MemStorage.getDailySpending store userId today days).length),
      ((MemStorage.getDailySpending store userId today days)[i + 1]).date =
        ((MemStorage.getDailySpending store userId today days)[i]).date + 1) := by
  refine ⟨by simp [MemStorage.getDailySpending], ?_, ?_⟩
  · intro i h
    have hi : i < days := by
      simpa [MemStorage.getDailySpending] using h
    constructor
    · simp only [MemStorage.getDailySpending, List.map_map, Function.comp_def,
        List.getElem_map, List.getElem_range]
      omega
    · simp only [MemStorage.getDailySpending, List.map_map, Function.comp_def,
        List.getElem_map, List.getElem_range, daySum]
      rw [show today - ((days : Int) - 1 - (i : Int)) =
        today - (days : Int) + 1 + (i : Int) from by omega]
  · intro i h
    simp only [MemStorage.getDailySpending, List.map_map, Function.comp_def,
      List.getElem_map, List.getElem_range]
    omega

/-- C6 witness: a two-day window ending day 0 over the store containing
only `dC` (price 7 on day -1): the first entry is day -1 with total 7. -/
theorem C6_witness :
    ((MemStorage.getDailySpending [dC] none 0 2)[0]).date = 0 - (2 : Int) + 1 + (0 : Int) ∧
    ((MemStorage.getDailySpending [dC] none 0 2)[0]).total =
      daySum (userTx [dC] none) (0 - (2 : Int) + 1 + (0 : Int)) :=
  (C6_dailySpending [dC] none 0 2).2.1 0 (by decide)

/-! Shared characterisation of a successful update. -/

theorem updateTransaction_found (parseTime parseDay : String → Int)
    (store : List Transaction) (id : Nat) (e : EditPayload) (t : Transaction)
    (h : store.find? (fun x => x.id = id) = some t) :
    MemStorage.updateTransaction parseTime parseDay store id e =
      .ok (updatedOf parseTime parseDay t e,
        store.map (fun s => if s.id = id then updatedOf parseTime parseDay t e else s)) := by
  unfold MemStorage.updateTransaction
  rw [h]
  rfl

/-! Claim C3. -/

/-- Date-string parser used by the C3 counterexample: sends the payload's
`dateTime` to 2024-06-15T10:00 UTC in milliseconds. -/
def c3parseTime : String → Int :=
  fun s => if s = "2024-06-15T10:00" then 1718445600000 else 0

/-- Date-string parser used by the C3 counterexample: sends the payload's
`dateOnly` to day 19723 (2024-01-01). -/
def c3parseDay : String → Int :=
  fun s => if s = "2024-01-01" then 19723 else 0

/-- An edit payload whose `dateOnly` (2024-01-01) is not the calendar date
of its `dateTime` (2024-06-15T10:00). -/
def c3edit : EditPayload :=
  ⟨1, 5, "Lunch", "2024-06-15T10:00", "2024-01-01", "Food"⟩

/-- C3 counterexample: the edit operation accepts an inconsistent
`dateTime`/`dateOnly` pair: after updating `dA` with `c3edit` the stored
transaction has `dateOnly` = day 19723 (2024-01-01) while the calendar day
of its `dateTime` is 19889 (2024-06-15), so the derived-consistency
invariant is broken by a single edit. -/
theorem C3_counterexample :
    (MemStorage.updateTransaction c3parseTime c3parseDay [dA] 1 c3edit).map
        (fun r => (r.1.dateOnly, dayOfTime r.1.dateTime)) =
      .ok (19723, 19889) ∧ (19723 : Int) ≠ 19889 := by
  exact ⟨by decide, by decide⟩

/-- C3 (amended): the edit operation stores `dateOnly` and `dateTime`
exactly as parsed from the two payload strings, independently of each
other: nothing is recomputed and no consistency check is made, so the
invariant `dateOnly = calendar day of dateTime` holds after an edit only
when the client happens to supply a consistent pair. -/
theorem C3_dates_stored_independently (parseTime parseDay : String → Int)
    (store : List Transaction) (id : Nat) (e : EditPayload) (t : Transaction)
    (h : store.find? (fun x => x.id = id) = some t) :
    ∃ u store2,
      MemStorage.updateTransaction parseTime parseDay store id e = .ok (u, store2) ∧
      u.dateOnly = parseDay e.dateOnly ∧
      u.dateTime = parseTime e.dateTime ∧
      (parseDay e.dateOnly = dayOfTime (parseTime e.dateTime) →
        u.dateOnly = dayOfTime u.dateTime) :=
  ⟨updatedOf parseTime parseDay t e,
   store.map (fun s => if s.id = id then updatedOf parseTime parseDay t e else s),
   updateTransaction_found parseTime parseDay store id e t h, rfl, rfl,
   fun hc => hc⟩

/-- C3 witness: the amended theorem applied to the one-transaction store
with the concrete parsers of the counterexample. -/
theorem C3_witness :
    ∃ u store2,
      MemStorage.updateTransaction c3parseTime c3parseDay [dA] 1 c3edit = .ok (u, store2) ∧
      u.dateOnly = c3parseDay c3edit.dateOnly ∧
      u.dateTime = c3parseTime c3edit.dateTime ∧
      (c3parseDay c3edit.dateOnly = dayOfTime (c3parseTime c3edit.dateTime) →
        u.dateOnly = dayOfTime u.dateTime) :=
  C3_dates_stored_independently c3parseTime c3parseDay [dA] 1 c3edit dA (by decide)

/-! Claim C4. -/

/-- An edit payload whose date strings contain no digit at all — no such
string parses as a JS date. -/
def c4edit : EditPayload :=
  ⟨1, 5, "Lunch", "certainly not a date", "also not a date", "Food"⟩

/-- An edit payload with a non-positive price, failing validation. -/
def c4bad : EditPayload :=
  ⟨1, -5, "Lunch", "2024-01-01T10:00", "2024-01-01", "Food"⟩

/-- C4 counterexample: validation does not require `dateTime`/`dateOnly`
to be parseable as dates: a payload whose date strings contain no digit
(hence certainly not parseable as any date) passes `editTransactionSchema`
and the PUT handler mutates the store with it. -/
theorem C4_counterexample :
    validateEdit c4edit = .ok c4edit ∧
    c4edit.dateTime.data.all (fun ch => !ch.isDigit) = true ∧
    c4edit.dateOnly.data.all (fun ch => !ch.isDigit) = true ∧
    (putTransaction (fun _ => 0) (fun _ => 0) [dA] 1 c4edit).2 ≠ [dA] := by
  refine ⟨by decide, by decide, by decide, by decide⟩

/-- C4 (amended): the edit input is validated before any mutation —
`price` must be positive, `items` non-empty and `category` in the closed
12-label set, but `dateTime`/`dateOnly` are only required to be strings
(no date-parseability check); on validation failure the store is returned
exactly unchanged together with a validation-error signal whose field list
is non-empty and names precisely the failing fields; on success the stored
record is replaced in place and the updated record is returned. -/
theorem C4_validation (parseTime parseDay : String → Int)
    (store : List Transaction) (id : Nat) (body : EditPayload) :
    (validateEdit { body with id := id } = .ok { body with id := id } ↔
      (0 < body.price ∧ body.items ≠ "" ∧ body.category ∈ categories)) ∧
    (∀ errs, validateEdit { body with id := id } = .error errs →
      putTransaction parseTime parseDay store id body = (.validationError errs, store) ∧
      errs ≠ [] ∧
      ("price" ∈ errs ↔ ¬ 0 < body.price) ∧
      ("items" ∈ errs ↔ body.items = "") ∧
      ("category" ∈ errs ↔ body.category ∉ categories)) ∧
    (validateEdit { body with id := id } = .ok { body with id := id } →
      (store.find? (fun t => t.id = id) = none →
        putTransaction parseTime parseDay store id body = (.notFound, store)) ∧
      (∀ t, store.find? (fun t2 => t2.id = id) = some t →
        putTransaction parseTime parseDay store id body =
          (.updated (updatedOf parseTime parseDay t { body with id := id }),
            store.map (fun s =>
              if s.id = id then updatedOf parseTime parseDay t { body with id := id }
              else s)))) := by
  refine ⟨?_, ?_, ?_⟩
  · by_cases hp : 0 < body.price <;> by_cases hi : body.items = "" <;>
      by_cases hc : body.category ∈ categories <;>
        simp [validateEdit, hp, hi, hc]
  · intro errs herr
    have hput : putTransaction parseTime parseDay store id body =
        (.validationError errs, store) := by
      unfold putTransaction
      rw [herr]
    refine ⟨hput, ?_, ?_, ?_, ?_⟩ <;>
      · revert herr
        by_cases hp : 0 < body.price <;> by_cases hi : body.items = "" <;>
          by_cases hc : body.category ∈ categories <;>
            simp [validateEdit, hp, hi, hc] <;> intro herr <;> simp [← herr, hp, hi, hc]
  · intro hok
    constructor
    · intro hnone
      unfold putTransaction
      rw [hok, hnone]
    · intro t ht
      have hfound := updateTransaction_found parseTime parseDay store id
        { body with id := id } t ht
      simp only [putTransaction, hok, ht, hfound]

/-- C4 witness: the failure clause applied to the payload with a negative
price — the handler answers with the field list `["price"]` and hands back
the untouched store. -/
theorem C4_witness :
    putTransaction (fun _ => 0) (fun _ => 0) [dA] 1 c4bad =
      (.validationError ["price"], [dA]) :=
  ((C4_validation (fun _ => 0) (fun _ => 0) [dA] 1 c4bad).2.1 ["price"] (by decide)).1

/-! Claim C8. -/

/-- C8: a successful edit keeps the transaction's `id` and `userId` exactly
(only `price`, `items`, `dateTime`, `dateOnly`, `category` are overwritten
— the update record is literally the stored one with those five fields
replaced), and the new store is the old one with only the entry of the
edited id replaced in place, so every transaction with a different id is
untouched. -/
theorem C8_update_frame (parseTime parseDay : String → Int)
    (store : List Transaction) (id : Nat) (e : EditPayload) (t : Transaction)
    (h : store.find? (fun x => x.id = id) = some t) :
    MemStorage.updateTransaction parseTime parseDay store id e =
      .ok (updatedOf parseTime parseDay t e,
        store.map (fun s => if s.id = id then updatedOf parseTime parseDay t e else s)) ∧
    (updatedOf parseTime parseDay t e).id = t.id ∧
    (updatedOf parseTime parseDay t e).userId = t.userId ∧
    (∀ s ∈ store, s.id ≠ id →
      s ∈ store.map (fun s2 => if s2.id = id then updatedOf parseTime parseDay t e else s2)) :=
  ⟨updateTransaction_found parseTime parseDay store id e t h, rfl, rfl,
   fun s hs hne => List.mem_map.2 ⟨s, hs, by rw [if_neg hne]⟩⟩

/-- C8 witness: updating transaction 1 in the two-transaction store leaves
`dB` (id 2) in the store unchanged. -/
theorem C8_witness :
    dB ∈ [dA, dB].map (fun s2 =>
      if s2.id = 1 then updatedOf (fun _ => 5) (fun _ => 7) dA c3edit else s2) :=
  (C8_update_frame (fun _ => 5) (fun _ => 7) [dA, dB] 1 c3edit dA (by decide)).2.2.2
    dB (by decide) (by decide)

/-! Claim C7: grouping machinery. -/

/-- Total amount recorded for key `c` in a key-amount list (sum over every
entry with that key, so it is meaningful even before nodup is known). -/
def amount (m : List (String × ℚ)) (c : String) : ℚ :=
  ((m.filter (fun p => p.1 = c)).map (fun p => p.2)).sum

theorem amount_nil (c : String) : amount [] c = 0 := rfl

theorem amount_cons (x : String × ℚ) (xs : List (String × ℚ)) (c : String) :
    amount (x :: xs) c = (if x.1 = c then x.2 else 0) + amount xs c := by
  by_cases h : x.1 = c <;> simp [amount, List.filter_cons, h]

theorem amount_addTo (m : List (String × ℚ)) (c : String) (q : ℚ) (c' : String) :
    amount (addTo m c q) c' = amount m c' + (if c = c' then q else 0) := by
  induction m with
  | nil =>
    by_cases h : c = c' <;> simp [addTo, amount_cons, amount_nil, h]
  | cons x xs ih =>
    by_cases h1 : x.1 = c
    · rw [addTo, if_pos h1, amount_cons, amount_cons]
      by_cases h2 : x.1 = c'
      · rw [if_pos h2, if_pos h2, if_pos (h1 ▸ h2 : c = c')]
        ring
      · rw [if_neg h2, if_neg h2, if_neg (fun hcc => h2 (h1.trans hcc))]
        ring
    · rw [addTo, if_neg h1, amount_cons, amount_cons, ih]
      ring

theorem mem_keys_addTo (m : List (String × ℚ)) (c : String) (q : ℚ) (c' : String) :
    c' ∈ (addTo m c q).map Prod.fst ↔ c' ∈ m.map Prod.fst ∨ c' = c := by
  induction m with
  | nil => simp [addTo]
  | cons x xs ih =>
    by_cases h1 : x.1 = c
    · rw [addTo, if_pos h1]
      simp [h1, or_assoc]
      tauto
    · rw [addTo, if_neg h1]
      simp [ih, or_assoc]

theorem nodup_keys_addTo (m : List (String × ℚ)) (c : String) (q : ℚ)
    (h : (m.map Prod.fst).Nodup) : ((addTo m c q).map Prod.fst).Nodup := by
  induction m with
  | nil => simp [addTo]
  | cons x xs ih =>
    by_cases h1 : x.1 = c
    · rw [addTo, if_pos h1]
      simpa [h1] using h
    · rw [addTo, if_neg h1]
      rw [List.map_cons, List.nodup_cons] at h ⊢
      refine ⟨fun hmem => h.1 ?_, ih h.2⟩
      rcases (mem_keys_addTo xs c q x.1).1 hmem with h2 | h2
      · exact h2
      · exact absurd h2 h1

theorem amount_foldl (l : List Transaction) (acc : List (String × ℚ)) (c : String) :
    amount (l.foldl (fun m t => addTo m t.category t.price) acc) c =
      amount acc c + ((l.filter (fun t => t.category = c)).map (fun t => t.price)).sum := by
  induction l generalizing acc with
  | nil => simp
  | cons t rest ih =>
    rw [List.foldl_cons, ih, amount_addTo, List.filter_cons]
    by_cases h : t.category = c <;> simp [h] <;> ring_nf

theorem mem_keys_foldl (l : List Transaction) (acc : List (String × ℚ)) (c : String) :
    c ∈ (l.foldl (fun m t => addTo m t.category t.price) acc).map Prod.fst ↔
      c ∈ acc.map Prod.fst ∨ c ∈ l.map (fun t => t.category) := by
  induction l generalizing acc with
  | nil => simp
  | cons t rest ih =>
    rw [List.foldl_cons, ih, mem_keys_addTo, List.map_cons, List.mem_cons]
    tauto

theorem nodup_keys_foldl (l : List Transaction) (acc : List (String × ℚ))
    (h : (acc.map Prod.fst).Nodup) :
    ((l.foldl (fun m t => addTo m t.category t.price) acc).map Prod.fst).Nodup := by
  induction l generalizing acc with
  | nil => exact h
  | cons t rest ih => exact ih _ (nodup_keys_addTo _ _ _ h)

theorem amount_groupTotals (l : List Transaction) (c : String) :
    amount (groupTotals l) c =
      ((l.filter (fun t => t.category = c)).map (fun t => t.price)).sum := by
  rw [groupTotals, amount_foldl, amount_nil, zero_add]

theorem mem_keys_groupTotals (l : List Transaction) (c : String) :
    c ∈ (groupTotals l).map Prod.fst ↔ c ∈ l.map (fun t => t.category) := by
  rw [groupTotals, mem_keys_foldl]
  simp

theorem nodup_keys_groupTotals (l : List Transaction) :
    ((groupTotals l).map Prod.fst).Nodup :=
  nodup_keys_foldl l [] (by simp)

theorem amount_eq_zero (m : List (String × ℚ)) (c : String)
    (h : c ∉ m.map Prod.fst) : amount m c = 0 := by
  induction m with
  | nil => rfl
  | cons x xs ih =>
    rw [amount_cons, if_neg (fun h2 => h (by simp [h2])), zero_add]
    exact ih (fun h2 => h (by simp [h2]))

theorem amount_of_mem (m : List (String × ℚ)) (p : String × ℚ)
    (hnd : (m.map Prod.fst).Nodup) (hp : p ∈ m) : amount m p.1 = p.2 := by
  induction m with
  | nil => cases hp
  | cons x xs ih =>
    rw [List.map_cons, List.nodup_cons] at hnd
    rcases List.mem_cons.1 hp with h | h
    · rw [← h] at hnd ⊢
      rw [amount_cons, if_pos rfl, amount_eq_zero xs p.1 hnd.1, add_zero]
    · have hne : x.1 ≠ p.1 := fun hx => hnd.1 (hx ▸ List.mem_map_of_mem Prod.fst h)
      rw [amount_cons, if_neg hne, zero_add]
      exact ih hnd.2 h

theorem mem_userTx {store : List Transaction} {userId : Option Nat}
    {t : Transaction} (h : t ∈ userTx store userId) : t ∈ store := by
  unfold userTx at h
  cases htu : truthyNat userId with
  | none =>
    rw [htu] at h
    exact h
  | some u =>
    rw [htu] at h
    exact (List.mem_filter.1 h).1

/-- The rows built by `getCategorySummary` from a grouped transaction list
and the month total, before and after its final stable sort. -/
def csRows (l : List Transaction) (tot : ℚ) : List CategorySummary :=
  List.insertionSort catDesc ((groupTotals l).map
    (fun p => ⟨p.1, p.2, if 0 < tot then p.2 / tot * 100 else 0⟩))

theorem csRows_cats_perm (l : List Transaction) (tot : ℚ) :
    List.Perm ((csRows l tot).map (fun e => e.category))
      ((groupTotals l).map Prod.fst) := by
  have hperm := (List.perm_insertionSort catDesc ((groupTotals l).map
    (fun p => (⟨p.1, p.2, if 0 < tot then p.2 / tot * 100 else 0⟩ : CategorySummary)))).map
      (fun e => e.category)
  rwa [List.map_map] at hperm

theorem nodup_csRows_cats (l : List Transaction) (tot : ℚ) :
    ((csRows l tot).map (fun e => e.category)).Nodup :=
  (csRows_cats_perm l tot).nodup_iff.2 (nodup_keys_groupTotals l)

theorem mem_csRows_cats (l : List Transaction) (tot : ℚ) (c : String) :
    c ∈ (csRows l tot).map (fun e => e.category) ↔
      c ∈ l.map (fun t => t.category) := by
  rw [(csRows_cats_perm l tot).mem_iff, mem_keys_groupTotals]

theorem csRows_entry (l : List Transaction) (tot : ℚ) (e : CategorySummary)
    (he : e ∈ csRows l tot) :
    e.total = ((l.filter (fun t => t.category = e.category)).map
      (fun t => t.price)).sum ∧
    e.percentage = (if 0 < tot then e.total / tot * 100 else 0) := by
  have he2 : e ∈ (groupTotals l).map
      (fun p => (⟨p.1, p.2, if 0 < tot then p.2 / tot * 100 else 0⟩ : CategorySummary)) :=
    (List.perm_insertionSort catDesc _).mem_iff.1 he
  rcases List.mem_map.1 he2 with ⟨p, hp, hpe⟩
  have htotal : e.total = p.2 := by rw [← hpe]
  have hcat : e.category = p.1 := by rw [← hpe]
  refine ⟨?_, ?_⟩
  · rw [htotal, hcat, ← amount_groupTotals,
      amount_of_mem (groupTotals l) p (nodup_keys_groupTotals l) hp]
  · rw [← hpe]

theorem sorted_csRows (l : List Transaction) (tot : ℚ) :
    List.Sorted catDesc (csRows l tot) :=
  List.sorted_insertionSort catDesc _

/-- C7: `getCategorySummary` has exactly one entry per category occurring
among the current month's transactions (no zero-filled categories, no
duplicates); each entry's total is the sum of `price` over that category's
current-month transactions and its percentage is `total / monthTotal * 100`
(the month total being positive because prices are positive); and the list
is sorted by total descending. -/
theorem C7_categorySummary (store : List Transaction) (userId : Option Nat)
    (today : Int) (hpos : ∀ t ∈ store, 0 < t.price) :
    ((MemStorage.getCategorySummary store userId today).map
      (fun e => e.category)).Nodup ∧
    (∀ c, c ∈ (MemStorage.getCategorySummary store userId today).map
        (fun e => e.category) ↔
      c ∈ ((userTx store userId).filter
        (fun t => monthIdx t.dateOnly = monthIdx today)).map (fun t => t.category)) ∧
    (∀ e ∈ MemStorage.getCategorySummary store userId today,
      e.total = ((((userTx store userId).filter
          (fun t => monthIdx t.dateOnly = monthIdx today)).filter
            (fun t => t.category = e.category)).map (fun t => t.price)).sum ∧
      e.percentage = e.total /
        ((((userTx store userId).filter
          (fun t => monthIdx t.dateOnly = monthIdx today)).map
            (fun t => t.price)).sum) * 100) ∧
    List.Sorted catDesc (MemStorage.getCategorySummary store userId today) := by
  have hdef : MemStorage.getCategorySummary store userId today =
      csRows ((userTx store userId).filter
          (fun t => monthIdx t.dateOnly = monthIdx today))
        ((((userTx store userId).filter
          (fun t => monthIdx t.dateOnly = monthIdx today)).map
            (fun t => t.price)).sum) := rfl
  rw [hdef]
  refine ⟨nodup_csRows_cats _ _, fun c => mem_csRows_cats _ _ c, ?_, sorted_csRows _ _⟩
  intro e he
  have hchar := csRows_entry _ _ e he
  refine ⟨hchar.1, ?_⟩
  have hcmem : e.category ∈ ((userTx store userId).filter
      (fun t => monthIdx t.dateOnly = monthIdx today)).map (fun t => t.category) :=
    (mem_csRows_cats _ _ e.category).1 (List.mem_map_of_mem (fun e => e.category) he)
  rcases List.mem_map.1 hcmem with ⟨t, ht, hteq⟩
  have htpos : (0 : ℚ) < ((((userTx store userId).filter
      (fun t => monthIdx t.dateOnly = monthIdx today)).map
        (fun t => t.price)).sum) := by
    apply List.sum_pos
    · intro x hx
      rcases List.mem_map.1 hx with ⟨u, hu, hux⟩
      rw [← hux]
      exact hpos u (mem_userTx (List.mem_filter.1 hu).1)
    · exact List.ne_nil_of_mem (List.mem_map_of_mem (fun t => t.price) ht)
  rw [hchar.2, if_pos htpos]

/-- C7 witness: the summary over the one-transaction store has no duplicate
category. -/
theorem C7_witness :
    ((MemStorage.getCategorySummary [dA] none 0).map
      (fun e => e.category)).Nodup :=
  (C7_categorySummary [dA] none 0 (by norm_num [dA])).1

end SpendingTracker
